import Mathlib

/-!
Verification of the signal-to-order execution and reconciliation engine of the
`botautomate` trading bot (`src/trading_bot.py`), as a shallow embedding.

Modelling conventions:
* every outbound exchange call is an explicit field of an environment record;
  a call that raises is modelled as `Except.error msg` carrying the exception
  message string, since the source branches on substrings of `str(e)`;
* Python floats are modelled as exact rationals (`ℚ`);
* the `active_trades` dict is modelled as `String → Option ActiveTrade`;
* Python string truthiness (`if not s`) is modelled explicitly (`none` or `""`);
* the side effects of a function (which endpoints were hit, which orders were
  cancelled, which notifications were sent) are returned as explicit logs.

Custom character-list string helpers are used instead of the core `String`
functions because the latter do not reduce in the kernel.
-/

/-- Lower-case a string (model of Python `str.lower`). -/
def strLower (s : String) : String := ⟨s.data.map Char.toLower⟩

/-- Upper-case a string (model of Python `str.upper`). -/
def strUpper (s : String) : String := ⟨s.data.map Char.toUpper⟩

/-- Model of Python `str.startswith`. -/
def strStarts (s pre : String) : Bool := pre.data.isPrefixOf s.data

/-- Substring search on character lists (model of Python `needle in hay`). -/
def listContainsSub (needle : List Char) : List Char → Bool
  | [] => needle.isEmpty
  | c :: rest => needle.isPrefixOf (c :: rest) || listContainsSub needle rest

/-- Model of Python `needle in hay` for strings. -/
def strContains (hay needle : String) : Bool := listContainsSub needle.data hay.data

/-- Model of `symbol.replace('/', '')` (trading_bot.py line 1270). -/
def strDropSlash (s : String) : String := ⟨s.data.filter (fun c => c != '/')⟩

/-- `Decimal(str(x)).quantize(Decimal('0.001'), rounding=ROUND_DOWN)`
(trading_bot.py lines 318 and 685): truncation toward zero at the 0.001 step. -/
def quantize_down_step (x : ℚ) : ℚ :=
  if 0 ≤ x then (⌊x * 1000⌋ : ℚ) / 1000 else -((⌊-x * 1000⌋ : ℚ) / 1000)

/-- `TradingSignal` dataclass (trading_bot.py lines 88-95). -/
structure TradingSignal where
  direction : String
  symbol : String
  leverage : ℚ
  entry_price : ℚ
  targets : List ℚ
deriving DecidableEq, Repr

/-- The regex-extraction results feeding `SignalParser.parse_signal`
(trading_bot.py lines 108-151).  Each `Option` field is the result of the
corresponding `re.search` (`none` = no match); `direction_long` is `some true`
for a Long marker and `some false` for a Short marker; `target_matches` is the
numeric list produced by the target `re.findall`. -/
structure RawMsgFields where
  direction_long : Option Bool
  symbol_text : Option String
  leverage_value : Option ℚ
  entry_value : Option ℚ
  target_matches : List ℚ

/-- `targets.sort()` (trading_bot.py line 156): stable ascending sort. -/
def sort_ascending (l : List ℚ) : List ℚ := List.insertionSort (· ≤ ·) l

/-- `targets.sort(reverse=True)` (trading_bot.py line 158): descending sort. -/
def sort_descending (l : List ℚ) : List ℚ := List.insertionSort (fun a b : ℚ => b ≤ a) l

/-- `SignalParser.parse_signal` (trading_bot.py lines 101-189), starting from
the regex-extraction results: each missing field returns `None`, targets are
sorted ascending for BUY / descending for SELL, then truncated to the first
target only (line 165). -/
def parse_signal (f : RawMsgFields) : Option TradingSignal :=
  match f.direction_long with
  | none => none
  | some isLong =>
    let direction := if isLong then "BUY" else "SELL"
    match f.symbol_text with
    | none => none
    | some symbol =>
      match f.leverage_value with
      | none => none
      | some leverage =>
        match f.entry_value with
        | none => none
        | some entry_price =>
          match f.target_matches with
          | [] => none
          | t :: ts =>
            let targets :=
              if direction = "BUY" then sort_ascending (t :: ts)
              else sort_descending (t :: ts)
            some { direction := direction, symbol := symbol, leverage := leverage,
                   entry_price := entry_price, targets := targets.take 1 }

/-- `BinanceFuturesTrader.calculate_position_size` (trading_bot.py lines
301-318): 15% of balance, times leverage, divided by entry price, truncated to
the 0.001 step. -/
def calculate_position_size (balance entry_price leverage : ℚ) : ℚ :=
  let usable_balance := balance * (15 / 100)
  quantize_down_step (usable_balance * leverage / entry_price)

/-- The stop-loss trigger price computed in `place_stop_loss_order`
(trading_bot.py lines 470-475): `entry * (1 - 1.70/leverage)` for BUY,
`entry * (1 + 1.70/leverage)` for SELL. -/
def stop_loss_price (direction : String) (entry_price leverage : ℚ) : ℚ :=
  if direction = "BUY" then entry_price * (1 - (170 / 100) / leverage)
  else entry_price * (1 + (170 / 100) / leverage)

/-- The kinds of exchange-mutating API calls the trader can issue.
`createLimit` never occurs in the source; it is listed so that "no plain
limit order is placed" is a statement about this type. -/
inductive ApiCall where
  | setLeverage
  | fetchBalance
  | createMarket
  | createLimit
  | createConditional (trigger : ℚ)
  | algoConditional (trigger : ℚ)
  | cancelOrder (order_id : String)
  | algoCancel (order_id : String)
deriving DecidableEq, Repr

/-- Environment for one `execute_signal` run: the outcome of each exchange
call the pipeline can make.  `Except.error msg` models a raised exception with
message `msg`; the `Option String` in a success is `order.get('id')` /
`resp.get('algoId')`, which Python may report as `None`. -/
structure TradeEnv where
  dry_run : Bool
  set_leverage_resp : Except String Unit
  fetch_balance_resp : Except String (Option ℚ)
  create_market_resp : Except String (Option String)
  sl_primary_resp : Except String (Option String)
  sl_algo_resp : Except String (Option String)
  tp_primary_resp : Except String (Option String)
  tp_algo_resp : Except String (Option String)

/-- `BinanceFuturesTrader.set_leverage` (trading_bot.py lines 228-283). -/
def set_leverage (env : TradeEnv) : Bool :=
  if env.dry_run then true
  else
    match env.set_leverage_resp with
    | .ok _ => true
    | .error _ => false

/-- `BinanceFuturesTrader.get_balance` (trading_bot.py lines 285-299):
`balance.get('USDT', {}).get('free', 0.0)` defaults a missing USDT entry to 0. -/
def get_balance (env : TradeEnv) : Option ℚ :=
  if env.dry_run then some 1000
  else
    match env.fetch_balance_resp with
    | .ok usdt_free => some (usdt_free.getD 0)
    | .error _ => none

/-- `BinanceFuturesTrader.place_market_order` (trading_bot.py lines 320-362). -/
def place_market_order (env : TradeEnv) (_position_size : ℚ) : Option String :=
  if env.dry_run then some "dry_run_order_id"
  else
    match env.create_market_resp with
    | .ok oid => oid
    | .error _ => none

/-- The error test `'-4120' in str(e) or 'Algo Order API' in str(e)`
(trading_bot.py lines 503 and 578). -/
def is_algo_required_err (err : String) : Bool :=
  strContains err "-4120" || strContains err "Algo Order API"

/-- `BinanceFuturesTrader._place_algo_conditional_order` (trading_bot.py lines
364-395): returns `resp.get('algoId')` on success, `None` on any exception. -/
def place_algo_conditional_order (resp : Except String (Option String)) : Option String :=
  match resp with
  | .ok algo_id => algo_id
  | .error _ => none

/-- `BinanceFuturesTrader.place_stop_loss_order` (trading_bot.py lines
448-532): primary `create_order STOP_MARKET`; on a -4120 / Algo-Order-API
error, one retry through the secondary algo endpoint; no other fallback.
Returns the leg order id and the log of placement endpoints hit. -/
def place_stop_loss_order (env : TradeEnv) (signal : TradingSignal)
    (entry_price _position_size leverage : ℚ) : Option String × List ApiCall :=
  let sl_price := stop_loss_price signal.direction entry_price leverage
  if env.dry_run then (some "dry_run_sl", [])
  else
    match env.sl_primary_resp with
    | .ok oid =>
      match oid with
      | some i => (some i, [.createConditional sl_price])
      | none => (none, [.createConditional sl_price])
    | .error e =>
      if is_algo_required_err e then
        match place_algo_conditional_order env.sl_algo_resp with
        | some a => (some a, [.createConditional sl_price, .algoConditional sl_price])
        | none => (none, [.createConditional sl_price, .algoConditional sl_price])
      else (none, [.createConditional sl_price])

/-- `BinanceFuturesTrader.place_take_profit_order` (trading_bot.py lines
534-606): same two-tier structure as the stop-loss leg, triggered at the
target price. -/
def place_take_profit_order (env : TradeEnv) (_signal : TradingSignal)
    (target_price _position_size : ℚ) (order_num : Nat) : Option String × List ApiCall :=
  if env.dry_run then (some ("dry_run_tp_" ++ toString order_num), [])
  else
    match env.tp_primary_resp with
    | .ok oid =>
      match oid with
      | some i => (some i, [.createConditional target_price])
      | none => (none, [.createConditional target_price])
    | .error e =>
      if is_algo_required_err e then
        match place_algo_conditional_order env.tp_algo_resp with
        | some a => (some a, [.createConditional target_price, .algoConditional target_price])
        | none => (none, [.createConditional target_price, .algoConditional target_price])
      else (none, [.createConditional target_price])

/-- One take-profit leg as stored in `active_trades[symbol]['tp_orders'][n]`
(trading_bot.py lines 728-730). -/
structure TPInfo where
  order_id : Option String
  price : ℚ
  size : ℚ
deriving DecidableEq, Repr

/-- One entry of the `active_trades` dict (trading_bot.py lines 722-733).
The `tpN_notified` flags that `check_order_status` adds to the dict are
modelled as the `tp_notified` list of leg numbers. -/
structure ActiveTrade where
  entry_price : ℚ
  position_size : ℚ
  direction : String
  leverage : ℚ
  targets : List ℚ
  tp_orders : List (Nat × TPInfo)
  tp_notified : List Nat
  sl_order_id : Option String
  entry_order_id : Option String
deriving DecidableEq, Repr

/-- `BinanceFuturesTrader.execute_signal` (trading_bot.py lines 608-739):
the linear pipeline.  Returns the success flag, the updated `active_trades`
map, and the log of exchange calls issued. -/
def execute_signal (env : TradeEnv) (signal : TradingSignal)
    (active_trades : String → Option ActiveTrade) :
    Bool × (String → Option ActiveTrade) × List ApiCall :=
  if set_leverage env = false then (false, active_trades, [.setLeverage])
  else
    match get_balance env with
    | none => (false, active_trades, [.setLeverage, .fetchBalance])
    | some balance =>
      if balance ≤ 0 then (false, active_trades, [.setLeverage, .fetchBalance])
      else
        let position_size := calculate_position_size balance signal.entry_price signal.leverage
        if position_size ≤ 0 then (false, active_trades, [.setLeverage, .fetchBalance])
        else
          match place_market_order env position_size with
          | none => (false, active_trades, [.setLeverage, .fetchBalance, .createMarket])
          | some entry_order_id =>
            let sl := place_stop_loss_order env signal signal.entry_price position_size
              signal.leverage
            if signal.targets.length < 1 then
              (false, active_trades, [.setLeverage, .fetchBalance, .createMarket] ++ sl.2)
            else
              let tp_size := quantize_down_step position_size
              let tp := place_take_profit_order env signal signal.targets.headI tp_size 1
              let new_trade : ActiveTrade :=
                { entry_price := signal.entry_price
                  position_size := position_size
                  direction := signal.direction
                  leverage := signal.leverage
                  targets := signal.targets
                  tp_orders := [(1, ⟨tp.1, signal.targets.headI, tp_size⟩)]
                  tp_notified := []
                  sl_order_id := sl.1
                  entry_order_id := some entry_order_id }
              (true, fun s => if s = signal.symbol then some new_trade else active_trades s,
               [.setLeverage, .fetchBalance, .createMarket] ++ sl.2 ++ tp.2)

/-- Environment for the reconciliation side: the outcome of each exchange
call, per order id.  `positions_resp` is the `fetch_positions([symbol])`
result, a list of `(symbol, contracts)` pairs with optional fields. -/
structure ReconEnv where
  dry_run : Bool
  fetch_order_resp : String → Except String (Option String)
  algo_status_resp : String → Except String (Option String)
  cancel_order_resp : String → Except String Unit
  algo_cancel_resp : String → Except String Unit
  positions_resp : Except String (List (Option String × Option ℚ))

/-- The "unknown order" error class of `_get_conditional_order_status`
(trading_bot.py line 436). -/
def is_unknown_order_err (err : String) : Bool :=
  strContains err "-2011" || strContains err "Unknown order" ||
    strContains (strLower err) "not found"

/-- The error class that redirects a cancel to the algo endpoint
(trading_bot.py line 410). -/
def is_algo_cancel_err (err : String) : Bool :=
  strContains err "-2011" || strContains err "-4120" ||
    strContains (strLower err) "algo" || strContains err "Unknown order"

/-- The statuses the primary lookup maps to `'closed'`
(trading_bot.py line 431).  Note: `'expired'` is absent. -/
def primary_closed_statuses : List String :=
  ["closed", "filled", "canceled", "cancelled", "rejected"]

/-- The algo statuses the secondary lookup maps to `'closed'`
(trading_bot.py line 441). -/
def algo_closed_statuses : List String :=
  ["FILLED", "CANCELED", "CANCELLED", "REJECTED", "EXPIRED"]

/-- `BinanceFuturesTrader._get_conditional_order_status` (trading_bot.py lines
422-446): primary `fetch_order`, falling back to the algo status lookup on an
"unknown order" class of error; `none` models Python `None`. -/
def get_conditional_order_status (env : ReconEnv) (order_id : Option String) :
    Option String :=
  match order_id with
  | none => none
  | some oid =>
    if oid = "" ∨ strStarts oid "dry_run" = true then none
    else
      match env.fetch_order_resp oid with
      | .ok status =>
        if strLower (status.getD "") ∈ primary_closed_statuses then some "closed"
        else some "open"
      | .error err =>
        if is_unknown_order_err err = true then
          match env.algo_status_resp oid with
          | .ok algo_status =>
            if strUpper (algo_status.getD "") ∈ algo_closed_statuses then some "closed"
            else some "open"
          | .error _ => none
        else none

/-- `BinanceFuturesTrader._cancel_conditional_order` (trading_bot.py lines
397-420): standard cancel first, then the algo cancel endpoint on a matching
error class.  Returns the boolean result and the log of cancel calls issued. -/
def cancel_conditional_order (env : ReconEnv) (order_id : Option String) :
    Bool × List ApiCall :=
  match order_id with
  | none => (true, [])
  | some oid =>
    if oid = "" ∨ strStarts oid "dry_run" = true then (true, [])
    else
      match env.cancel_order_resp oid with
      | .ok _ => (true, [.cancelOrder oid])
      | .error err =>
        if is_algo_cancel_err err = true then
          match env.algo_cancel_resp oid with
          | .ok _ => (true, [.cancelOrder oid, .algoCancel oid])
          | .error _ => (false, [.cancelOrder oid, .algoCancel oid])
        else (false, [.cancelOrder oid])

/-- Python string truthiness on an optional id: `if sl_id:` is false for
`None` and for the empty string. -/
def truthy_str : Option String → Option String
  | none => none
  | some s => if s = "" then none else some s

/-- The take-profit order ids eligible for cancellation in steps 2 and 3 of
`check_order_status` (trading_bot.py lines 1259-1261 and 1278-1280):
present, non-empty, and not a dry-run id. -/
def eligible_tp_ids (tps : List (Nat × TPInfo)) : List String :=
  tps.filterMap fun p =>
    match p.2.order_id with
    | none => none
    | some oid => if oid = "" ∨ strStarts oid "dry_run" = true then none else some oid

/-- The realized ROI computed when a take-profit leg fills
(trading_bot.py lines 1233-1236). -/
def realized_roi (direction : String) (entry_price tp_price leverage : ℚ) : ℚ :=
  if direction = "BUY" then (tp_price - entry_price) / entry_price * 100 * leverage
  else (entry_price - tp_price) / entry_price * 100 * leverage

/-- The take-profit scan loop of `check_order_status` (trading_bot.py lines
1221-1252): visit legs in order, skip legs with a missing/empty/dry-run id or
an already-set notified flag, query the rest, and stop at the first leg whose
status is `'closed'`.  Returns the list of ids that were status-queried and
the first closed leg, if any. -/
def scan_tp_orders (env : ReconEnv) (trade : ActiveTrade) :
    List (Nat × TPInfo) → List String × Option (Nat × TPInfo)
  | [] => ([], none)
  | (tp_num, tp_info) :: rest =>
    match tp_info.order_id with
    | none => scan_tp_orders env trade rest
    | some oid =>
      if oid = "" ∨ strStarts oid "dry_run" = true then scan_tp_orders env trade rest
      else if tp_num ∈ trade.tp_notified then scan_tp_orders env trade rest
      else if get_conditional_order_status env (some oid) = some "closed" then
        ([oid], some (tp_num, tp_info))
      else
        let r := scan_tp_orders env trade rest
        (oid :: r.1, r.2)

/-- The observable effects of one `check_order_status` pass:
which order ids were status-queried, which `(symbol, leg, roi)` notifications
were emitted, and which cancel calls were issued. -/
structure ReconEffects where
  status_queries : List String
  notifications : List (String × Nat × ℚ)
  cancel_calls : List ApiCall
deriving DecidableEq, Repr

/-- The empty effect log. -/
def no_recon_effects : ReconEffects := ⟨[], [], []⟩

/-- The contracts amount of the first position entry whose symbol matches
(trading_bot.py lines 1271-1283): the loop `continue`s past mismatches and
`break`s after the first match. -/
def find_position (sym_norm : String) : List (Option String × Option ℚ) → Option ℚ
  | [] => none
  | p :: rest =>
    if strDropSlash (p.1.getD "") ≠ sym_norm then find_position sym_norm rest
    else some (p.2.getD 0)

/-- Step 3 of `check_order_status` (trading_bot.py lines 1266-1285): if not in
dry-run mode and the live position for the symbol is exactly zero, cancel the
stop-loss and all eligible take-profit orders and remove the trade. -/
def position_check (env : ReconEnv) (symbol : String)
    (active_trades : String → Option ActiveTrade) (trade : ActiveTrade)
    (queries : List String) : (String → Option ActiveTrade) × ReconEffects :=
  if env.dry_run then (active_trades, ⟨queries, [], []⟩)
  else
    match env.positions_resp with
    | .error _ => (active_trades, ⟨queries, [], []⟩)
    | .ok positions =>
      match find_position (strDropSlash symbol) positions with
      | none => (active_trades, ⟨queries, [], []⟩)
      | some contracts =>
        if contracts = 0 then
          let sl_cancel :=
            match truthy_str trade.sl_order_id with
            | some sl => (cancel_conditional_order env (some sl)).2
            | none => []
          let tp_cancels := (eligible_tp_ids trade.tp_orders).foldr
            (fun oid acc => (cancel_conditional_order env (some oid)).2 ++ acc) []
          (fun s => if s = symbol then none else active_trades s,
           ⟨queries, [], sl_cancel ++ tp_cancels⟩)
        else (active_trades, ⟨queries, [], []⟩)

/-- `TelegramSignalListener.check_order_status` (trading_bot.py lines
1205-1290): one reconciliation pass for one symbol.
Step 1: first closed take-profit leg wins — notify once, cancel the stop-loss
order, remove the trade and stop.  Step 2: otherwise, a closed stop-loss
cancels all take-profit legs and removes the trade.  Step 3: otherwise, a
zero live position cancels everything and removes the trade. -/
def check_order_status (env : ReconEnv) (symbol : String)
    (active_trades : String → Option ActiveTrade) :
    (String → Option ActiveTrade) × ReconEffects :=
  match active_trades symbol with
  | none => (active_trades, no_recon_effects)
  | some trade =>
    let scan := scan_tp_orders env trade trade.tp_orders
    match scan.2 with
    | some (tp_num, tp_info) =>
      let profit := realized_roi trade.direction trade.entry_price tp_info.price trade.leverage
      let sl_cancel :=
        match truthy_str trade.sl_order_id with
        | some sl => (cancel_conditional_order env (some sl)).2
        | none => []
      (fun s => if s = symbol then none else active_trades s,
       ⟨scan.1, [(symbol, tp_num, profit)], sl_cancel⟩)
    | none =>
      match truthy_str trade.sl_order_id with
      | some sl =>
        if get_conditional_order_status env (some sl) = some "closed" then
          let tp_cancels := (eligible_tp_ids trade.tp_orders).foldr
            (fun oid acc => (cancel_conditional_order env (some oid)).2 ++ acc) []
          (fun s => if s = symbol then none else active_trades s,
           ⟨scan.1 ++ [sl], [], tp_cancels⟩)
        else position_check env symbol active_trades trade (scan.1 ++ [sl])
      | none => position_check env symbol active_trades trade scan.1

/-! ### Helper lemmas -/

/-- Truncation at the 0.001 step never rounds a nonnegative value up. -/
theorem quantize_down_step_le (x : ℚ) (hx : 0 ≤ x) : quantize_down_step x ≤ x := by
  unfold quantize_down_step
  rw [if_pos hx]
  have h1 : ((⌊x * 1000⌋ : ℚ)) ≤ x * 1000 := Int.floor_le _
  have h2 : (x * 1000) / 1000 = x := by ring
  have h3 : ((⌊x * 1000⌋ : ℚ)) / 1000 ≤ (x * 1000) / 1000 := by gcongr
  rw [h2] at h3
  exact h3

/-- The truncated value is an integer multiple of the 0.001 step. -/
theorem quantize_down_step_step (x : ℚ) :
    ∃ k : ℤ, quantize_down_step x = (k : ℚ) / 1000 := by
  unfold quantize_down_step
  by_cases hx : 0 ≤ x
  · exact ⟨⌊x * 1000⌋, by rw [if_pos hx]⟩
  · refine ⟨-⌊-x * 1000⌋, ?_⟩
    rw [if_neg hx]
    push_cast
    ring

/-- Concrete evaluation of the position-size formula at the spec example. -/
theorem calculate_position_size_eval : calculate_position_size 1000 100 10 = 15 := by
  unfold calculate_position_size quantize_down_step
  norm_num

/-! ### C7 -/

/-- C7 counterexample: at balance 1000, entry 100, leverage 10 the code computes
`1000 * 0.15 * 10 / 100 = 15.0`, not the claimed `1.5`. -/
theorem c7_counterexample :
    calculate_position_size 1000 100 10 = 15 ∧ (15 : ℚ) ≠ 3 / 2 := by
  refine ⟨calculate_position_size_eval, ?_⟩
  norm_num

/-- C7 (amended): the position size is `balance * 0.15 * leverage / entryPrice`
truncated (never up) to the 0.001 step; in particular
`size(1000, 100, 10, 0.15) = 15.0`; and `execute_signal` fails when the
fetched balance is non-positive or the computed quantity is non-positive. -/
theorem c7_position_size_amended :
    (∀ balance entry_price leverage : ℚ,
      calculate_position_size balance entry_price leverage
        = quantize_down_step (balance * (15 / 100) * leverage / entry_price)) ∧
    (∀ x : ℚ, 0 ≤ x → quantize_down_step x ≤ x) ∧
    (∀ x : ℚ, ∃ k : ℤ, quantize_down_step x = (k : ℚ) / 1000) ∧
    calculate_position_size 1000 100 10 = 15 ∧
    (∀ (env : TradeEnv) (signal : TradingSignal)
        (active_trades : String → Option ActiveTrade) (b : ℚ),
      get_balance env = some b → b ≤ 0 →
      (execute_signal env signal active_trades).1 = false) ∧
    (∀ (env : TradeEnv) (signal : TradingSignal)
        (active_trades : String → Option ActiveTrade) (b : ℚ),
      get_balance env = some b →
      calculate_position_size b signal.entry_price signal.leverage ≤ 0 →
      (execute_signal env signal active_trades).1 = false) := by
  refine ⟨fun balance e l => rfl, quantize_down_step_le, quantize_down_step_step,
    calculate_position_size_eval, ?_, ?_⟩
  · intro env signal active_trades b hbal hble
    unfold execute_signal
    by_cases hl : set_leverage env = false
    · rw [if_pos hl]
    · rw [if_neg hl]
      simp only [hbal]
      rw [if_pos hble]
  · intro env signal active_trades b hbal hps
    unfold execute_signal
    by_cases hl : set_leverage env = false
    · rw [if_pos hl]
    · rw [if_neg hl]
      simp only [hbal]
      by_cases hble : b ≤ 0
      · rw [if_pos hble]
      · rw [if_neg hble, if_pos hps]

/-- Environment in which the balance fetch reports a zero free balance. -/
def c7_env : TradeEnv :=
  { dry_run := false
    set_leverage_resp := .ok ()
    fetch_balance_resp := .ok (some 0)
    create_market_resp := .ok (some "E1")
    sl_primary_resp := .ok (some "S1")
    sl_algo_resp := .ok none
    tp_primary_resp := .ok (some "T1")
    tp_algo_resp := .ok none }

/-- A fixed example signal used by several witnesses. -/
def ex_signal : TradingSignal :=
  { direction := "BUY", symbol := "ETH/USDT", leverage := 10, entry_price := 100,
    targets := [120] }

/-- C7 witness: with a zero balance the pipeline reports failure. -/
theorem c7_witness :
    (execute_signal c7_env ex_signal (fun _ => none)).1 = false :=
  c7_position_size_amended.2.2.2.2.1 c7_env ex_signal (fun _ => none) 0 rfl (by decide)

/-! ### C8 -/

/-- C8: the stop-loss trigger targeting -170% ROI is
`entry * (1 - 1.70/leverage)` for a LONG and `entry * (1 + 1.70/leverage)` for
a SHORT; at entry 100 and leverage 10 it is 83 resp. 117; and every
conditional placement attempt made by `place_stop_loss_order` carries exactly
this trigger price. -/
theorem c8_stop_price_formula :
    (∀ entry_price leverage : ℚ,
      stop_loss_price "BUY" entry_price leverage
        = entry_price * (1 - (170 / 100) / leverage) ∧
      stop_loss_price "SELL" entry_price leverage
        = entry_price * (1 + (170 / 100) / leverage)) ∧
    stop_loss_price "BUY" 100 10 = 83 ∧
    stop_loss_price "SELL" 100 10 = 117 ∧
    (∀ (env : TradeEnv) (signal : TradingSignal)
        (entry_price position_size leverage q : ℚ),
      (ApiCall.createConditional q
          ∈ (place_stop_loss_order env signal entry_price position_size leverage).2 ∨
       ApiCall.algoConditional q
          ∈ (place_stop_loss_order env signal entry_price position_size leverage).2) →
      q = stop_loss_price signal.direction entry_price leverage) := by
  refine ⟨fun e l => ⟨by rw [stop_loss_price, if_pos rfl],
      by rw [stop_loss_price, if_neg (by decide)]⟩, ?_, ?_, ?_⟩
  · rw [stop_loss_price, if_pos rfl]; norm_num
  · rw [stop_loss_price, if_neg (by decide)]; norm_num
  · intro env signal e ps l q hq
    unfold place_stop_loss_order at hq
    by_cases hd : env.dry_run
    · simp [hd] at hq
    · simp only [hd, Bool.false_eq_true, if_false] at hq
      cases hresp : env.sl_primary_resp with
      | ok oid =>
        simp only [hresp] at hq
        cases oid with
        | none =>
          simp at hq
          exact hq
        | some i =>
          simp at hq
          exact hq
      | error err =>
        simp only [hresp] at hq
        by_cases ha : is_algo_required_err err = true
        · rw [if_pos ha] at hq
          cases halgo : place_algo_conditional_order env.sl_algo_resp with
          | none =>
            simp only [halgo] at hq
            simp at hq
            exact hq
          | some a =>
            simp only [halgo] at hq
            simp at hq
            exact hq
        · rw [if_neg ha] at hq
          simp at hq
          exact hq

/-- C8 witness: the concrete BUY placement attempt carries trigger 83. -/
theorem c8_witness :
    stop_loss_price "BUY" 100 10 = 83 ∧
    ((ApiCall.createConditional (stop_loss_price "BUY" 100 10)
        ∈ (place_stop_loss_order c7_env ex_signal 100 15 10).2) →
      stop_loss_price "BUY" 100 10 = stop_loss_price ex_signal.direction 100 10) :=
  ⟨c8_stop_price_formula.2.1,
   fun hmem => c8_stop_price_formula.2.2.2 c7_env ex_signal 100 15 10 _ (Or.inl hmem)⟩

/-! ### C5 -/

/-- Environment whose primary order lookup reports status `expired`. -/
def c5_env : ReconEnv :=
  { dry_run := false
    fetch_order_resp := fun _ => .ok (some "expired")
    algo_status_resp := fun _ => .error ""
    cancel_order_resp := fun _ => .ok ()
    algo_cancel_resp := fun _ => .ok ()
    positions_resp := .ok [] }

/-- C5 counterexample: an order whose primary exchange-reported status is
`expired` is classified `open`, not `closed`, because line 431 of the source
omits `expired` from the primary closed set (the secondary set on line 441
does include `EXPIRED`). -/
theorem c5_counterexample :
    get_conditional_order_status c5_env (some "42") = some "open" ∧
    get_conditional_order_status c5_env (some "42") ≠ some "closed" := by
  decide

/-- C5 (amended): `getConditionalOrderStatus` returns `closed` when the
primary lookup reports (case-insensitively) closed, filled, canceled,
cancelled, or rejected — but not expired, which the primary tier classifies
as `open` — and when, after an unknown-order error, the secondary algo lookup
reports FILLED, CANCELED, CANCELLED, REJECTED, or EXPIRED. -/
theorem c5_two_tier_status_amended (env : ReconEnv) (oid st ast err : String)
    (hne : oid ≠ "") (hdry : strStarts oid "dry_run" = false) :
    (env.fetch_order_resp oid = .ok (some st) →
      strLower st ∈ primary_closed_statuses →
      get_conditional_order_status env (some oid) = some "closed") ∧
    (env.fetch_order_resp oid = .error err →
      is_unknown_order_err err = true →
      env.algo_status_resp oid = .ok (some ast) →
      strUpper ast ∈ algo_closed_statuses →
      get_conditional_order_status env (some oid) = some "closed") := by
  have hguard : ¬(oid = "" ∨ strStarts oid "dry_run" = true) := by
    rintro (h | h)
    · exact hne h
    · rw [hdry] at h
      exact Bool.false_ne_true h
  constructor
  · intro hfetch hmem
    simp only [get_conditional_order_status]
    rw [if_neg hguard]
    simp only [hfetch, Option.getD_some]
    rw [if_pos hmem]
  · intro hfetch herr halgo hmem
    simp only [get_conditional_order_status]
    rw [if_neg hguard]
    simp only [hfetch, herr, if_true]
    simp only [halgo, Option.getD_some]
    rw [if_pos hmem]

/-- Environment whose primary order lookup reports status `FILLED`. -/
def c5_witness_env : ReconEnv :=
  { dry_run := false
    fetch_order_resp := fun _ => .ok (some "FILLED")
    algo_status_resp := fun _ => .ok (some "NEW")
    cancel_order_resp := fun _ => .ok ()
    algo_cancel_resp := fun _ => .ok ()
    positions_resp := .ok [] }

/-- C5 witness: a filled order is reported closed through the primary tier. -/
theorem c5_witness :
    get_conditional_order_status c5_witness_env (some "42") = some "closed" :=
  (c5_two_tier_status_amended c5_witness_env "42" "FILLED" "" "" (by decide)
    (by decide)).1 rfl (by decide)

/-! ### C6 -/

/-- Environment modelling an order that is already gone (filled/canceled):
the primary cancel raises the Binance `-2011 Unknown order sent` error and
the secondary algo cancel also raises, since neither system has a live order. -/
def c6_env : ReconEnv :=
  { dry_run := false
    fetch_order_resp := fun _ => .error ""
    algo_status_resp := fun _ => .error ""
    cancel_order_resp := fun _ => .error "binance error -2011 Unknown order sent"
    algo_cancel_resp := fun _ => .error "Unknown algo order"
    positions_resp := .ok [] }

/-- C6: evaluating `_cancel_conditional_order` at an already-gone order.
The secondary algo cancel endpoint is attempted (both cancel calls appear in
the log, confirming the first half of the claim), but the function returns
`False`, contradicting its own docstring ("Returns True if canceled (or
already gone)") and the claim that an already filled/canceled/rejected order
is reported as a successful cancellation outcome. -/
theorem c6_already_gone_eval :
    (cancel_conditional_order c6_env (some "555")).1 = false ∧
    (cancel_conditional_order c6_env (some "555")).2
      = [ApiCall.cancelOrder "555", ApiCall.algoCancel "555"] := by
  decide

/-! ### C1 -/

/-- Number of secondary algo conditional placements in a call log. -/
def algo_call_count (log : List ApiCall) : Nat :=
  (log.filter fun c => match c with
    | ApiCall.algoConditional _ => true
    | _ => false).length

/-- Whether a call log contains a plain market or plain limit placement. -/
def has_plain_order (log : List ApiCall) : Bool :=
  log.any fun c => match c with
    | ApiCall.createMarket => true
    | ApiCall.createLimit => true
    | _ => false

/-- C1: for each conditional leg (stop-loss and take-profit): if the primary
placement fails with the -4120 "use Algo Order API" error class, the
secondary algo endpoint is invoked exactly once and its result becomes the
leg order id (so if the secondary also fails the id is `none`); if the
primary fails with any other error the secondary is not invoked and the id is
`none`; if the primary succeeds the secondary is never invoked; and in no
case is a plain market or limit order placed.  At most one order id is ever
produced (the return type is a single `Option`). -/
theorem c1_conditional_fallback (env : TradeEnv) (signal : TradingSignal)
    (entry_price position_size leverage target_price : ℚ) (order_num : Nat)
    (err : String) (hdry : env.dry_run = false) :
    ((env.sl_primary_resp = .error err → is_algo_required_err err = true →
      algo_call_count (place_stop_loss_order env signal entry_price position_size
        leverage).2 = 1 ∧
      (place_stop_loss_order env signal entry_price position_size leverage).1
        = place_algo_conditional_order env.sl_algo_resp) ∧
     (env.sl_primary_resp = .error err → is_algo_required_err err = false →
      algo_call_count (place_stop_loss_order env signal entry_price position_size
        leverage).2 = 0 ∧
      (place_stop_loss_order env signal entry_price position_size leverage).1 = none) ∧
     (∀ oid, env.sl_primary_resp = .ok oid →
      algo_call_count (place_stop_loss_order env signal entry_price position_size
        leverage).2 = 0 ∧
      (place_stop_loss_order env signal entry_price position_size leverage).1 = oid) ∧
     has_plain_order (place_stop_loss_order env signal entry_price position_size
        leverage).2 = false) ∧
    ((env.tp_primary_resp = .error err → is_algo_required_err err = true →
      algo_call_count (place_take_profit_order env signal target_price position_size
        order_num).2 = 1 ∧
      (place_take_profit_order env signal target_price position_size order_num).1
        = place_algo_conditional_order env.tp_algo_resp) ∧
     (env.tp_primary_resp = .error err → is_algo_required_err err = false →
      algo_call_count (place_take_profit_order env signal target_price position_size
        order_num).2 = 0 ∧
      (place_take_profit_order env signal target_price position_size order_num).1
        = none) ∧
     (∀ oid, env.tp_primary_resp = .ok oid →
      algo_call_count (place_take_profit_order env signal target_price position_size
        order_num).2 = 0 ∧
      (place_take_profit_order env signal target_price position_size order_num).1
        = oid) ∧
     has_plain_order (place_take_profit_order env signal target_price position_size
        order_num).2 = false) := by
  constructor
  · refine ⟨?_, ?_, ?_, ?_⟩
    · intro hresp ha
      unfold place_stop_loss_order
      simp only [hdry, Bool.false_eq_true, if_false, hresp, if_pos ha]
      cases halgo : place_algo_conditional_order env.sl_algo_resp <;>
        simp [halgo, algo_call_count]
    · intro hresp ha
      unfold place_stop_loss_order
      simp only [hdry, Bool.false_eq_true, if_false, hresp]
      rw [if_neg (by rw [ha]; exact Bool.false_ne_true)]
      simp [algo_call_count]
    · intro oid hresp
      unfold place_stop_loss_order
      simp only [hdry, Bool.false_eq_true, if_false, hresp]
      cases oid <;> simp [algo_call_count]
    · unfold place_stop_loss_order
      simp only [hdry, Bool.false_eq_true, if_false]
      cases hresp : env.sl_primary_resp with
      | ok oid => cases oid <;> simp [has_plain_order]
      | error e =>
        by_cases ha : is_algo_required_err e = true
        · cases halgo : place_algo_conditional_order env.sl_algo_resp <;>
            simp [has_plain_order, ha, halgo]
        · simp [has_plain_order, ha]
  · refine ⟨?_, ?_, ?_, ?_⟩
    · intro hresp ha
      unfold place_take_profit_order
      simp only [hdry, Bool.false_eq_true, if_false, hresp, if_pos ha]
      cases halgo : place_algo_conditional_order env.tp_algo_resp <;>
        simp [halgo, algo_call_count]
    · intro hresp ha
      unfold place_take_profit_order
      simp only [hdry, Bool.false_eq_true, if_false, hresp]
      rw [if_neg (by rw [ha]; exact Bool.false_ne_true)]
      simp [algo_call_count]
    · intro oid hresp
      unfold place_take_profit_order
      simp only [hdry, Bool.false_eq_true, if_false, hresp]
      cases oid <;> simp [algo_call_count]
    · unfold place_take_profit_order
      simp only [hdry, Bool.false_eq_true, if_false]
      cases hresp : env.tp_primary_resp with
      | ok oid => cases oid <;> simp [has_plain_order]
      | error e =>
        by_cases ha : is_algo_required_err e = true
        · cases halgo : place_algo_conditional_order env.tp_algo_resp <;>
            simp [has_plain_order, ha, halgo]
        · simp [has_plain_order, ha]

/-- Environment in which both conditional legs are rejected with -4120 on the
primary endpoint and succeed on the secondary algo endpoint. -/
def c1_env : TradeEnv :=
  { dry_run := false
    set_leverage_resp := .ok ()
    fetch_balance_resp := .ok (some 1000)
    create_market_resp := .ok (some "E1")
    sl_primary_resp := .error "code -4120, please use Algo Order API"
    sl_algo_resp := .ok (some "999")
    tp_primary_resp := .error "code -4120, please use Algo Order API"
    tp_algo_resp := .ok (some "777") }

/-- C1 witness: with a -4120 primary rejection and an algo id `999`, the
stop-loss leg id is `999` and the algo endpoint was hit exactly once. -/
theorem c1_witness :
    (place_stop_loss_order c1_env ex_signal 100 15 10).1 = some "999" ∧
    algo_call_count (place_stop_loss_order c1_env ex_signal 100 15 10).2 = 1 := by
  have h := (c1_conditional_fallback c1_env ex_signal 100 15 10 120 1
    "code -4120, please use Algo Order API" rfl).1.1 rfl (by decide)
  exact ⟨h.2.trans rfl, h.1⟩

/-! ### C3 -/

/-- C3: if setting leverage fails, the fetched balance is absent or
non-positive, the computed position size is non-positive, or the entry market
order placement fails, then `execute_signal` returns failure and leaves the
trade ledger untouched. -/
theorem c3_critical_failure_no_trade (env : TradeEnv) (signal : TradingSignal)
    (active_trades : String → Option ActiveTrade)
    (h : set_leverage env = false
      ∨ get_balance env = none
      ∨ (∃ b, get_balance env = some b ∧ b ≤ 0)
      ∨ (∃ b, get_balance env = some b
          ∧ calculate_position_size b signal.entry_price signal.leverage ≤ 0)
      ∨ (∀ ps : ℚ, place_market_order env ps = none)) :
    (execute_signal env signal active_trades).1 = false ∧
    (execute_signal env signal active_trades).2.1 = active_trades := by
  suffices hs : ∃ log, execute_signal env signal active_trades
      = (false, active_trades, log) by
    obtain ⟨log, hlog⟩ := hs
    rw [hlog]
    exact ⟨rfl, rfl⟩
  simp only [execute_signal]
  split
  · exact ⟨_, rfl⟩
  next hl =>
    split
    next hb => exact ⟨_, rfl⟩
    next b hb =>
      split
      · exact ⟨_, rfl⟩
      next hble =>
        split
        · exact ⟨_, rfl⟩
        next hps =>
          split
          next hm => exact ⟨_, rfl⟩
          next eid hm =>
            split
            · exact ⟨_, rfl⟩
            next hlen =>
              exfalso
              rcases h with h | h | ⟨b2, hb2, hle2⟩ | ⟨b2, hb2, hle2⟩ | h
              · exact hl h
              · rw [hb] at h
                cases h
              · rw [hb] at hb2
                injection hb2 with e2
                subst e2
                exact hble hle2
              · rw [hb] at hb2
                injection hb2 with e2
                subst e2
                exact hps hle2
              · rw [h _] at hm
                cases hm

/-- Environment in which setting leverage raises. -/
def c3_env : TradeEnv :=
  { dry_run := false
    set_leverage_resp := .error "Invalid API-key"
    fetch_balance_resp := .ok (some 1000)
    create_market_resp := .ok (some "E1")
    sl_primary_resp := .ok (some "S1")
    sl_algo_resp := .ok none
    tp_primary_resp := .ok (some "T1")
    tp_algo_resp := .ok none }

/-- C3 witness: a leverage failure aborts and leaves the ledger unchanged. -/
theorem c3_witness :
    (execute_signal c3_env ex_signal (fun _ => none)).1 = false ∧
    (execute_signal c3_env ex_signal (fun _ => none)).2.1 = (fun _ => none) :=
  c3_critical_failure_no_trade c3_env ex_signal (fun _ => none) (Or.inl rfl)

/-! ### execute_signal helper lemmas -/

/-- When every pipeline stage up to the entry order succeeds and the signal
has at least one target, `execute_signal` returns success, stores the new
`ActiveTrade` under the signal symbol, and issues exactly the placement
calls of the pipeline. -/
theorem execute_signal_success_eq (env : TradeEnv) (signal : TradingSignal)
    (active_trades : String → Option ActiveTrade) (b : ℚ) (entry_order_id : String)
    (hlev : set_leverage env = true) (hbal : get_balance env = some b) (hb : 0 < b)
    (hps : 0 < calculate_position_size b signal.entry_price signal.leverage)
    (hentry : place_market_order env
        (calculate_position_size b signal.entry_price signal.leverage)
      = some entry_order_id)
    (hlen : ¬ signal.targets.length < 1) :
    execute_signal env signal active_trades
      = (true,
         fun s => if s = signal.symbol then some
           { entry_price := signal.entry_price
             position_size := calculate_position_size b signal.entry_price signal.leverage
             direction := signal.direction
             leverage := signal.leverage
             targets := signal.targets
             tp_orders := [(1,
               ⟨(place_take_profit_order env signal signal.targets.headI
                   (quantize_down_step (calculate_position_size b signal.entry_price
                     signal.leverage)) 1).1,
                signal.targets.headI,
                quantize_down_step (calculate_position_size b signal.entry_price
                  signal.leverage)⟩)]
             tp_notified := []
             sl_order_id := (place_stop_loss_order env signal signal.entry_price
               (calculate_position_size b signal.entry_price signal.leverage)
               signal.leverage).1
             entry_order_id := some entry_order_id }
           else active_trades s,
         [ApiCall.setLeverage, ApiCall.fetchBalance, ApiCall.createMarket]
           ++ (place_stop_loss_order env signal signal.entry_price
                (calculate_position_size b signal.entry_price signal.leverage)
                signal.leverage).2
           ++ (place_take_profit_order env signal signal.targets.headI
                (quantize_down_step (calculate_position_size b signal.entry_price
                  signal.leverage)) 1).2) := by
  have hl : ¬ (set_leverage env = false) := by
    simp [hlev]
  simp only [execute_signal, hbal]
  rw [if_neg hl, if_neg (not_le.mpr hb), if_neg (not_le.mpr hps)]
  simp only [hentry]
  rw [if_neg hlen]

/-- Inversion: a successful `execute_signal` run implies every stage up to
the entry order succeeded and the signal had at least one target. -/
theorem execute_signal_success_inv (env : TradeEnv) (signal : TradingSignal)
    (active_trades : String → Option ActiveTrade)
    (h : (execute_signal env signal active_trades).1 = true) :
    ∃ b entry_order_id,
      set_leverage env = true ∧ get_balance env = some b ∧ 0 < b ∧
      0 < calculate_position_size b signal.entry_price signal.leverage ∧
      place_market_order env
          (calculate_position_size b signal.entry_price signal.leverage)
        = some entry_order_id ∧
      ¬ signal.targets.length < 1 := by
  simp only [execute_signal] at h
  split at h
  · simp at h
  next hl =>
    split at h
    next => simp at h
    next b hb =>
      split at h
      · simp at h
      next hble =>
        split at h
        · simp at h
        next hps =>
          split at h
          next => simp at h
          next eid hm =>
            split at h
            · simp at h
            next hlen =>
              have hlev : set_leverage env = true := by
                cases hsl : set_leverage env with
                | false => exact absurd hsl hl
                | true => rfl
              exact ⟨b, eid, hlev, hb, not_le.mp hble, not_le.mp hps, hm, hlen⟩

/-- Every call issued by `place_stop_loss_order` targets a conditional
endpoint. -/
theorem place_stop_loss_order_calls_shape (env : TradeEnv) (signal : TradingSignal)
    (e ps l : ℚ) (c : ApiCall)
    (hc : c ∈ (place_stop_loss_order env signal e ps l).2) :
    (∃ q, c = ApiCall.createConditional q) ∨ ∃ q, c = ApiCall.algoConditional q := by
  unfold place_stop_loss_order at hc
  by_cases hd : env.dry_run
  · simp [hd] at hc
  · simp only [hd, Bool.false_eq_true, if_false] at hc
    cases hresp : env.sl_primary_resp with
    | ok oid =>
      simp only [hresp] at hc
      cases oid with
      | none =>
        simp at hc
        exact Or.inl ⟨_, hc⟩
      | some i =>
        simp at hc
        exact Or.inl ⟨_, hc⟩
    | error e2 =>
      simp only [hresp] at hc
      by_cases ha : is_algo_required_err e2 = true
      · rw [if_pos ha] at hc
        cases halgo : place_algo_conditional_order env.sl_algo_resp with
        | none =>
          simp only [halgo] at hc
          simp at hc
          rcases hc with hc | hc
          · exact Or.inl ⟨_, hc⟩
          · exact Or.inr ⟨_, hc⟩
        | some a =>
          simp only [halgo] at hc
          simp at hc
          rcases hc with hc | hc
          · exact Or.inl ⟨_, hc⟩
          · exact Or.inr ⟨_, hc⟩
      · rw [if_neg ha] at hc
        simp at hc
        exact Or.inl ⟨_, hc⟩

/-- Every call issued by `place_take_profit_order` targets a conditional
endpoint. -/
theorem place_take_profit_order_calls_shape (env : TradeEnv) (signal : TradingSignal)
    (tq ps : ℚ) (n : Nat) (c : ApiCall)
    (hc : c ∈ (place_take_profit_order env signal tq ps n).2) :
    (∃ q, c = ApiCall.createConditional q) ∨ ∃ q, c = ApiCall.algoConditional q := by
  unfold place_take_profit_order at hc
  by_cases hd : env.dry_run
  · simp [hd] at hc
  · simp only [hd, Bool.false_eq_true, if_false] at hc
    cases hresp : env.tp_primary_resp with
    | ok oid =>
      simp only [hresp] at hc
      cases oid with
      | none =>
        simp at hc
        exact Or.inl ⟨_, hc⟩
      | some i =>
        simp at hc
        exact Or.inl ⟨_, hc⟩
    | error e2 =>
      simp only [hresp] at hc
      by_cases ha : is_algo_required_err e2 = true
      · rw [if_pos ha] at hc
        cases halgo : place_algo_conditional_order env.tp_algo_resp with
        | none =>
          simp only [halgo] at hc
          simp at hc
          rcases hc with hc | hc
          · exact Or.inl ⟨_, hc⟩
          · exact Or.inr ⟨_, hc⟩
        | some a =>
          simp only [halgo] at hc
          simp at hc
          rcases hc with hc | hc
          · exact Or.inl ⟨_, hc⟩
          · exact Or.inr ⟨_, hc⟩
      · rw [if_neg ha] at hc
        simp at hc
        exact Or.inl ⟨_, hc⟩

/-! ### parse_signal helper lemmas -/

/-- Inversion of a successful parse: all fields matched, at least one target
was found, and the produced signal is the sorted-truncated record. -/
theorem parse_signal_inv (f : RawMsgFields) (sig : TradingSignal)
    (h : parse_signal f = some sig) :
    ∃ isLong symbol leverage entry t ts,
      f.direction_long = some isLong ∧ f.symbol_text = some symbol ∧
      f.leverage_value = some leverage ∧ f.entry_value = some entry ∧
      f.target_matches = t :: ts ∧
      sig = { direction := if isLong then "BUY" else "SELL"
              symbol := symbol
              leverage := leverage
              entry_price := entry
              targets := (if (if isLong then "BUY" else "SELL") = "BUY"
                then sort_ascending (t :: ts)
                else sort_descending (t :: ts)).take 1 } := by
  simp only [parse_signal] at h
  split at h
  next => exact Option.noConfusion h
  next isLong heq =>
    split at h
    next => exact Option.noConfusion h
    next symbol heq2 =>
      split at h
      next => exact Option.noConfusion h
      next leverage heq3 =>
        split at h
        next => exact Option.noConfusion h
        next entry heq4 =>
          split at h
          next => exact Option.noConfusion h
          next t ts heq5 =>
            injection h with h
            exact ⟨isLong, symbol, leverage, entry, t, ts, heq, heq2, heq3, heq4,
              heq5, h.symm⟩

/-- A sorted nonempty list truncated to its first element is nonempty. -/
theorem insertionSort_take_one_ne_nil (r : ℚ → ℚ → Prop) [DecidableRel r]
    (t : ℚ) (ts : List ℚ) :
    (List.insertionSort r (t :: ts)).take 1 ≠ [] := by
  have hlen := (List.perm_insertionSort r (t :: ts)).length_eq
  cases hs : List.insertionSort r (t :: ts) with
  | nil =>
    rw [hs] at hlen
    simp at hlen
  | cons a rest =>
    simp

/-- A successfully parsed signal always carries at least one target. -/
theorem parse_signal_targets_ne_nil (f : RawMsgFields) (sig : TradingSignal)
    (h : parse_signal f = some sig) : sig.targets ≠ [] := by
  obtain ⟨isLong, symbol, lev, entry, t, ts, _, _, _, _, _, hsig⟩ := parse_signal_inv f sig h
  subst hsig
  simp only
  split
  · exact insertionSort_take_one_ne_nil _ t ts
  · exact insertionSort_take_one_ne_nil _ t ts

/-- Applying a one-key functional update at the updated key. -/
theorem update_apply_self {α : Type} (f : String → Option α) (k : String)
    (v : Option α) : (fun s => if s = k then v else f s) k = v := by simp

/-! ### C4 -/

/-- C4: for every parsed signal, if all stages up to the entry order succeed
but the stop-loss placement fails, `execute_signal` still returns success and
records an `ActiveTrade` for the symbol whose `sl_order_id` is absent. -/
theorem c4_sl_failure_nonfatal (env : TradeEnv) (f : RawMsgFields)
    (signal : TradingSignal) (active_trades : String → Option ActiveTrade)
    (b : ℚ) (entry_order_id : String)
    (hparse : parse_signal f = some signal)
    (hlev : set_leverage env = true)
    (hbal : get_balance env = some b) (hb : 0 < b)
    (hps : 0 < calculate_position_size b signal.entry_price signal.leverage)
    (hentry : place_market_order env
        (calculate_position_size b signal.entry_price signal.leverage)
      = some entry_order_id)
    (hsl : (place_stop_loss_order env signal signal.entry_price
        (calculate_position_size b signal.entry_price signal.leverage)
        signal.leverage).1 = none) :
    (execute_signal env signal active_trades).1 = true ∧
    ∃ t : ActiveTrade,
      (execute_signal env signal active_trades).2.1 signal.symbol = some t ∧
      t.sl_order_id = none ∧
      t.entry_order_id = some entry_order_id ∧
      t.entry_price = signal.entry_price := by
  have htne := parse_signal_targets_ne_nil f signal hparse
  have hlen : ¬ signal.targets.length < 1 := by
    cases hts : signal.targets with
    | nil => exact absurd hts htne
    | cons a r => simp [hts]
  rw [execute_signal_success_eq env signal active_trades b entry_order_id hlev hbal hb
    hps hentry hlen]
  exact ⟨rfl, ⟨_, update_apply_self active_trades signal.symbol _, hsl, rfl, rfl⟩⟩

/-- Environment in which everything succeeds except both stop-loss paths. -/
def c4_env : TradeEnv :=
  { dry_run := false
    set_leverage_resp := .ok ()
    fetch_balance_resp := .ok (some 1000)
    create_market_resp := .ok (some "E1")
    sl_primary_resp := .error "exchange rejected the stop order"
    sl_algo_resp := .error "exchange down"
    tp_primary_resp := .ok (some "T1")
    tp_algo_resp := .ok none }

/-- The raw fields whose parse yields `ex_signal`. -/
def c4_fields : RawMsgFields :=
  { direction_long := some true
    symbol_text := some "ETH/USDT"
    leverage_value := some 10
    entry_value := some 100
    target_matches := [120] }

/-- C4 witness: the concrete run succeeds and records a trade with no
stop-loss order id. -/
theorem c4_witness :
    (execute_signal c4_env ex_signal (fun _ => none)).1 = true ∧
    ∃ t : ActiveTrade,
      (execute_signal c4_env ex_signal (fun _ => none)).2.1 "ETH/USDT" = some t ∧
      t.sl_order_id = none := by
  have h := c4_sl_failure_nonfatal c4_env c4_fields ex_signal (fun _ => none) 1000 "E1"
    rfl rfl rfl (by decide)
    (lt_of_lt_of_eq (show (0 : ℚ) < 15 by decide) calculate_position_size_eval.symm)
    rfl rfl
  obtain ⟨h1, t, h2, h3, _⟩ := h
  exact ⟨h1, t, h2, h3⟩

/-! ### C10 -/

/-- C10: a successful `execute_signal` for a symbol that already holds an
`ActiveTrade` overwrites the ledger entry with the new trade data, cancels
none of the previous trade's orders (no cancel endpoint appears in the call
log), and leaves every other symbol's entry unchanged. -/
theorem c10_overwrite_no_cancel (env : TradeEnv) (signal : TradingSignal)
    (active_trades : String → Option ActiveTrade) (old : ActiveTrade)
    (hold : active_trades signal.symbol = some old)
    (hsucc : (execute_signal env signal active_trades).1 = true) :
    (∃ t : ActiveTrade,
      (execute_signal env signal active_trades).2.1 signal.symbol = some t ∧
      t.entry_price = signal.entry_price ∧ t.direction = signal.direction ∧
      t.leverage = signal.leverage ∧ t.targets = signal.targets ∧
      t.tp_notified = []) ∧
    (∀ s, s ≠ signal.symbol →
      (execute_signal env signal active_trades).2.1 s = active_trades s) ∧
    (∀ oid, ApiCall.cancelOrder oid ∉ (execute_signal env signal active_trades).2.2 ∧
      ApiCall.algoCancel oid ∉ (execute_signal env signal active_trades).2.2) := by
  obtain ⟨b, eid, hlev, hbal, hb, hps, hentry, hlen⟩ :=
    execute_signal_success_inv env signal active_trades hsucc
  rw [execute_signal_success_eq env signal active_trades b eid hlev hbal hb hps
    hentry hlen]
  refine ⟨⟨_, update_apply_self active_trades signal.symbol _, rfl, rfl, rfl, rfl, rfl⟩,
    fun s hs => by simp [hs], fun oid => ?_⟩
  constructor
  · intro hmem
    rcases List.mem_append.mp hmem with hmem2 | htp
    · rcases List.mem_append.mp hmem2 with hbase | hslm
      · simp at hbase
      · rcases place_stop_loss_order_calls_shape env signal _ _ _ _ hslm with
          ⟨q, hq⟩ | ⟨q, hq⟩ <;> simp at hq
    · rcases place_take_profit_order_calls_shape env signal _ _ _ _ htp with
        ⟨q, hq⟩ | ⟨q, hq⟩ <;> simp at hq
  · intro hmem
    rcases List.mem_append.mp hmem with hmem2 | htp
    · rcases List.mem_append.mp hmem2 with hbase | hslm
      · simp at hbase
      · rcases place_stop_loss_order_calls_shape env signal _ _ _ _ hslm with
          ⟨q, hq⟩ | ⟨q, hq⟩ <;> simp at hq
    · rcases place_take_profit_order_calls_shape env signal _ _ _ _ htp with
        ⟨q, hq⟩ | ⟨q, hq⟩ <;> simp at hq

/-- Environment in which every pipeline stage succeeds. -/
def c10_env : TradeEnv :=
  { dry_run := false
    set_leverage_resp := .ok ()
    fetch_balance_resp := .ok (some 1000)
    create_market_resp := .ok (some "E2")
    sl_primary_resp := .ok (some "S2")
    sl_algo_resp := .ok none
    tp_primary_resp := .ok (some "T2")
    tp_algo_resp := .ok none }

/-- A pre-existing trade for the same symbol as `ex_signal`. -/
def c10_old : ActiveTrade :=
  { entry_price := 50
    position_size := 1
    direction := "SELL"
    leverage := 5
    targets := [40]
    tp_orders := [(1, ⟨some "OLD_TP", 40, 1⟩)]
    tp_notified := []
    sl_order_id := some "OLD_SL"
    entry_order_id := some "OLD_E" }

/-- A ledger that already holds a trade for the signal symbol. -/
def c10_trades : String → Option ActiveTrade :=
  fun s => if s = "ETH/USDT" then some c10_old else none

/-- The concrete run used by the C10 witness succeeds. -/
theorem c10_exec_succ : (execute_signal c10_env ex_signal c10_trades).1 = true := by
  have hlen : ¬ ex_signal.targets.length < 1 := by decide
  rw [execute_signal_success_eq c10_env ex_signal c10_trades 1000 "E2" rfl rfl
    (by decide)
    (lt_of_lt_of_eq (show (0 : ℚ) < 15 by decide) calculate_position_size_eval.symm)
    rfl hlen]

/-- C10 witness: the overwriting run cancels nothing and leaves other
symbols alone. -/
theorem c10_witness :
    (∀ oid, ApiCall.cancelOrder oid ∉ (execute_signal c10_env ex_signal c10_trades).2.2) ∧
    (execute_signal c10_env ex_signal c10_trades).2.1 "BTC/USDT"
      = c10_trades "BTC/USDT" := by
  have h := c10_overwrite_no_cancel c10_env ex_signal c10_trades c10_old rfl c10_exec_succ
  exact ⟨fun oid => (h.2.2 oid).1, h.2.1 "BTC/USDT" (by decide)⟩

/-! ### C9 -/

instance : IsTotal ℚ (fun a b : ℚ => b ≤ a) := ⟨fun a b => le_total b a⟩

instance : IsTrans ℚ (fun a b : ℚ => b ≤ a) :=
  ⟨fun _ _ _ hab hbc => le_trans hbc hab⟩

/-- Taking one element preserves the head. -/
theorem head_of_take_one (l : List ℚ) : (l.take 1).head? = l.head? := by
  cases l <;> simp

/-- The head of the ascending sort is a minimum of the input list. -/
theorem sort_ascending_head_min (l : List ℚ) (m : ℚ)
    (hm : (sort_ascending l).head? = some m) :
    m ∈ l ∧ ∀ t ∈ l, m ≤ t := by
  unfold sort_ascending at hm
  cases hs : List.insertionSort (α := ℚ) (· ≤ ·) l with
  | nil =>
    rw [hs] at hm
    cases hm
  | cons a rest =>
    rw [hs] at hm
    injection hm with hm
    subst hm
    have hperm := List.perm_insertionSort (α := ℚ) (· ≤ ·) l
    rw [hs] at hperm
    have hsorted := List.sorted_insertionSort (α := ℚ) (· ≤ ·) l
    rw [hs] at hsorted
    constructor
    · exact hperm.mem_iff.mp (List.mem_cons_self a rest)
    · intro t2 ht2
      have ht3 : t2 ∈ a :: rest := hperm.mem_iff.mpr ht2
      rcases List.mem_cons.mp ht3 with heq | ht4
      · rw [heq]
      · exact (List.sorted_cons.mp hsorted).1 t2 ht4

/-- The head of the descending sort is a maximum of the input list. -/
theorem sort_descending_head_max (l : List ℚ) (m : ℚ)
    (hm : (sort_descending l).head? = some m) :
    m ∈ l ∧ ∀ t ∈ l, t ≤ m := by
  unfold sort_descending at hm
  cases hs : List.insertionSort (α := ℚ) (fun a b : ℚ => b ≤ a) l with
  | nil =>
    rw [hs] at hm
    cases hm
  | cons a rest =>
    rw [hs] at hm
    injection hm with hm
    subst hm
    have hperm := List.perm_insertionSort (α := ℚ) (fun a b : ℚ => b ≤ a) l
    rw [hs] at hperm
    have hsorted := List.sorted_insertionSort (α := ℚ) (fun a b : ℚ => b ≤ a) l
    rw [hs] at hsorted
    constructor
    · exact hperm.mem_iff.mp (List.mem_cons_self a rest)
    · intro t2 ht2
      have ht3 : t2 ∈ a :: rest := hperm.mem_iff.mpr ht2
      rcases List.mem_cons.mp ht3 with heq | ht4
      · rw [heq]
      · exact (List.sorted_cons.mp hsorted).1 t2 ht4

/-- C9: for every parseable message, `parse_signal` sorts the extracted
targets ascending for LONG (BUY) and descending for SHORT (SELL) before
truncating to the first target, so the exposed first target is the minimum
(resp. maximum) of the extracted prices; when all targets lie on the
take-profit side of the entry price, it is therefore the target nearest to
the entry price. -/
theorem c9_targets_order (f : RawMsgFields) (sig : TradingSignal)
    (h : parse_signal f = some sig) :
    (sig.direction = "BUY" →
      sig.targets = (sort_ascending f.target_matches).take 1) ∧
    (sig.direction = "SELL" →
      sig.targets = (sort_descending f.target_matches).take 1) ∧
    (∀ m, sig.targets.head? = some m →
      m ∈ f.target_matches ∧
      (sig.direction = "BUY" →
        (∀ t2 ∈ f.target_matches, m ≤ t2) ∧
        ((∀ t2 ∈ f.target_matches, sig.entry_price ≤ t2) →
          ∀ t2 ∈ f.target_matches,
            |m - sig.entry_price| ≤ |t2 - sig.entry_price|)) ∧
      (sig.direction = "SELL" →
        (∀ t2 ∈ f.target_matches, t2 ≤ m) ∧
        ((∀ t2 ∈ f.target_matches, t2 ≤ sig.entry_price) →
          ∀ t2 ∈ f.target_matches,
            |m - sig.entry_price| ≤ |t2 - sig.entry_price|))) := by
  obtain ⟨isLong, symbol, lev, entry, t, ts, hdir, hsym, hlevq, hent, htm, hsig⟩ :=
    parse_signal_inv f sig h
  subst hsig
  rw [htm]
  cases isLong with
  | true =>
    refine ⟨fun _ => rfl, fun hcon => by simp at hcon, ?_⟩
    intro m hm
    have hm2 : (sort_ascending (t :: ts)).head? = some m := by
      rw [← head_of_take_one]
      exact hm
    obtain ⟨hmem, hmin⟩ := sort_ascending_head_min (t :: ts) m hm2
    refine ⟨hmem, fun _ => ⟨hmin, ?_⟩, fun hcon => by simp at hcon⟩
    intro habove t2 ht2
    rw [abs_of_nonneg (sub_nonneg.mpr (habove m hmem)),
      abs_of_nonneg (sub_nonneg.mpr (habove t2 ht2))]
    exact sub_le_sub_right (hmin t2 ht2) _
  | false =>
    refine ⟨fun hcon => by simp at hcon, fun _ => rfl, ?_⟩
    intro m hm
    have hm2 : (sort_descending (t :: ts)).head? = some m := by
      rw [← head_of_take_one]
      exact hm
    obtain ⟨hmem, hmax⟩ := sort_descending_head_max (t :: ts) m hm2
    refine ⟨hmem, fun hcon => by simp at hcon, fun _ => ⟨hmax, ?_⟩⟩
    intro hbelow t2 ht2
    rw [abs_of_nonpos (sub_nonpos.mpr (hbelow m hmem)),
      abs_of_nonpos (sub_nonpos.mpr (hbelow t2 ht2))]
    simp only [neg_sub]
    exact sub_le_sub_left (hmax t2 ht2) _

/-- Raw fields with unsorted targets used by the C9 witness. -/
def c9_fields : RawMsgFields :=
  { direction_long := some true
    symbol_text := some "ETH/USDT"
    leverage_value := some 10
    entry_value := some 100
    target_matches := [120, 110, 130] }

/-- The signal produced by parsing `c9_fields`. -/
def c9_signal : TradingSignal :=
  { direction := "BUY", symbol := "ETH/USDT", leverage := 10, entry_price := 100,
    targets := [110] }

/-- C9 witness: on the concrete unsorted list `[120, 110, 130]` the exposed
first target is 110, the minimum. -/
theorem c9_witness :
    parse_signal c9_fields = some c9_signal ∧
    (∀ t2 ∈ c9_fields.target_matches, (110 : ℚ) ≤ t2) := by
  have hp : parse_signal c9_fields = some c9_signal := by decide
  have h := c9_targets_order c9_fields c9_signal hp
  have hm := ((h.2.2 110 rfl).2.1 rfl).1
  exact ⟨hp, hm⟩

/-! ### C2 -/

/-- Number of primary cancel calls for a given order id in a call log. -/
def primary_cancel_count (oid : String) (log : List ApiCall) : Nat :=
  (log.filter fun c => c == ApiCall.cancelOrder oid).length

/-- A truthy optional string is non-empty. -/
theorem truthy_str_ne_empty {o : Option String} {s : String}
    (h : truthy_str o = some s) : s ≠ "" := by
  cases o with
  | none => cases h
  | some s0 =>
    simp only [truthy_str] at h
    by_cases h0 : s0 = ""
    · rw [if_pos h0] at h
      cases h
    · rw [if_neg h0] at h
      injection h with h
      rw [← h]
      exact h0

/-- One invocation of `_cancel_conditional_order` on a real order id issues
exactly one primary cancel call for that id. -/
theorem cancel_conditional_order_primary_once (env : ReconEnv) (sl : String)
    (hg : ¬(sl = "" ∨ strStarts sl "dry_run" = true)) :
    primary_cancel_count sl (cancel_conditional_order env (some sl)).2 = 1 := by
  simp only [cancel_conditional_order]
  rw [if_neg hg]
  cases hresp : env.cancel_order_resp sl with
  | ok u => simp [primary_cancel_count]
  | error e =>
    by_cases ha : is_algo_cancel_err e = true
    · cases halgo : env.algo_cancel_resp sl <;> simp [primary_cancel_count, ha, halgo]
    · simp [primary_cancel_count, ha]

/-- Decomposition of a successful take-profit scan: the list splits into a
prefix of skipped or open legs, the first eligible closed leg, and an
untouched suffix; the queried ids are exactly those of the prefix scan plus
the closed leg's id. -/
theorem scan_tp_orders_found (env : ReconEnv) (trade : ActiveTrade) :
    ∀ (l : List (Nat × TPInfo)) (qs : List String) (tp_num : Nat) (tp_info : TPInfo),
    scan_tp_orders env trade l = (qs, some (tp_num, tp_info)) →
    ∃ pre post oid,
      l = pre ++ (tp_num, tp_info) :: post ∧
      tp_info.order_id = some oid ∧
      ¬(oid = "" ∨ strStarts oid "dry_run" = true) ∧
      tp_num ∉ trade.tp_notified ∧
      get_conditional_order_status env (some oid) = some "closed" ∧
      qs = (scan_tp_orders env trade pre).1 ++ [oid] := by
  intro l
  induction l with
  | nil =>
    intro qs n i h
    simp [scan_tp_orders] at h
  | cons hd tl ih =>
    obtain ⟨m, mi⟩ := hd
    intro qs n i h
    simp only [scan_tp_orders] at h
    cases hoid : mi.order_id with
    | none =>
      rw [hoid] at h
      obtain ⟨pre, post, oid, hl, hi, hg, hn, hcl, hq⟩ := ih qs n i h
      refine ⟨(m, mi) :: pre, post, oid, by rw [List.cons_append, hl], hi, hg, hn, hcl, ?_⟩
      simp only [scan_tp_orders, hoid]
      exact hq
    | some oid0 =>
      simp only [hoid] at h
      by_cases hg0 : oid0 = "" ∨ strStarts oid0 "dry_run" = true
      · rw [if_pos hg0] at h
        obtain ⟨pre, post, oid, hl, hi, hg, hn, hcl, hq⟩ := ih qs n i h
        refine ⟨(m, mi) :: pre, post, oid, by rw [List.cons_append, hl], hi, hg, hn, hcl, ?_⟩
        simp only [scan_tp_orders, hoid]
        rw [if_pos hg0]
        exact hq
      · rw [if_neg hg0] at h
        by_cases hn0 : m ∈ trade.tp_notified
        · rw [if_pos hn0] at h
          obtain ⟨pre, post, oid, hl, hi, hg, hn, hcl, hq⟩ := ih qs n i h
          refine ⟨(m, mi) :: pre, post, oid, by rw [List.cons_append, hl], hi, hg, hn, hcl, ?_⟩
          simp only [scan_tp_orders, hoid]
          rw [if_neg hg0, if_pos hn0]
          exact hq
        · rw [if_neg hn0] at h
          by_cases hc0 : get_conditional_order_status env (some oid0) = some "closed"
          · rw [if_pos hc0] at h
            have h1 : ([oid0] : List String) = qs := congrArg Prod.fst h
            have h2 : some (m, mi) = some (n, i) := congrArg Prod.snd h
            injection h2 with h2
            have hm2 : m = n := congrArg Prod.fst h2
            have hmi2 : mi = i := congrArg Prod.snd h2
            subst hm2
            subst hmi2
            refine ⟨[], tl, oid0, rfl, hoid, hg0, hn0, hc0, ?_⟩
            rw [← h1]
            rfl
          · rw [if_neg hc0] at h
            have h1 : oid0 :: (scan_tp_orders env trade tl).1 = qs := congrArg Prod.fst h
            have h2 : (scan_tp_orders env trade tl).2 = some (n, i) := congrArg Prod.snd h
            have hscan : scan_tp_orders env trade tl
                = ((scan_tp_orders env trade tl).1, some (n, i)) := by
              rw [← h2]
            obtain ⟨pre, post, oid, hl, hi, hg, hn, hcl, hq⟩ := ih _ n i hscan
            refine ⟨(m, mi) :: pre, post, oid, by rw [List.cons_append, hl], hi, hg, hn,
              hcl, ?_⟩
            simp only [scan_tp_orders, hoid]
            rw [if_neg hg0, if_neg hn0, if_neg hc0]
            rw [← h1, hq]
            rfl

/-- C2: if, during a reconciliation pass, the take-profit scan observes its
first eligible closed leg `(tp_num, tp_info)`, then the pass: removes the
trade for that symbol (leaving other symbols untouched); emits exactly one
"target achieved" notification, for that leg; only fires for a leg whose
notified flag is unset; issues exactly the stop-loss cancellation (exactly
one primary cancel call for a real stop id, none when the stop id is
absent) and no take-profit cancels; queries no leg beyond the closed one;
and a subsequent pass for the same symbol is a complete no-op. -/
theorem c2_tp_fill_pass (env : ReconEnv) (symbol : String)
    (active_trades : String → Option ActiveTrade) (trade : ActiveTrade)
    (tp_num : Nat) (tp_info : TPInfo)
    (htrade : active_trades symbol = some trade)
    (hclosed : (scan_tp_orders env trade trade.tp_orders).2 = some (tp_num, tp_info)) :
    (check_order_status env symbol active_trades).1 symbol = none ∧
    (∀ s, s ≠ symbol →
      (check_order_status env symbol active_trades).1 s = active_trades s) ∧
    (check_order_status env symbol active_trades).2.notifications
      = [(symbol, tp_num,
          realized_roi trade.direction trade.entry_price tp_info.price trade.leverage)] ∧
    tp_num ∉ trade.tp_notified ∧
    (check_order_status env symbol active_trades).2.cancel_calls
      = (match truthy_str trade.sl_order_id with
         | some sl => (cancel_conditional_order env (some sl)).2
         | none => []) ∧
    (∀ sl, truthy_str trade.sl_order_id = some sl →
      strStarts sl "dry_run" = false →
      primary_cancel_count sl
        (check_order_status env symbol active_trades).2.cancel_calls = 1) ∧
    (truthy_str trade.sl_order_id = none →
      (check_order_status env symbol active_trades).2.cancel_calls = []) ∧
    (∃ pre post oid, trade.tp_orders = pre ++ (tp_num, tp_info) :: post ∧
      tp_info.order_id = some oid ∧
      (check_order_status env symbol active_trades).2.status_queries
        = (scan_tp_orders env trade pre).1 ++ [oid]) ∧
    (∀ env2 : ReconEnv,
      check_order_status env2 symbol (check_order_status env symbol active_trades).1
        = ((check_order_status env symbol active_trades).1, no_recon_effects)) := by
  have hfull : scan_tp_orders env trade trade.tp_orders
      = ((scan_tp_orders env trade trade.tp_orders).1, some (tp_num, tp_info)) := by
    rw [← hclosed]
  obtain ⟨pre, post, oid, hl, hi, hg, hn, hcl, hq⟩ :=
    scan_tp_orders_found env trade trade.tp_orders _ tp_num tp_info hfull
  have hmain : check_order_status env symbol active_trades
      = (fun s => if s = symbol then none else active_trades s,
         ⟨(scan_tp_orders env trade trade.tp_orders).1,
          [(symbol, tp_num,
            realized_roi trade.direction trade.entry_price tp_info.price trade.leverage)],
          match truthy_str trade.sl_order_id with
          | some sl => (cancel_conditional_order env (some sl)).2
          | none => []⟩) := by
    simp only [check_order_status, htrade, hclosed]
  refine ⟨?_, ?_, ?_, hn, ?_, ?_, ?_, ?_, ?_⟩
  · rw [hmain]
    simp
  · intro s hs
    rw [hmain]
    simp [hs]
  · rw [hmain]
  · rw [hmain]
  · intro sl hsl hdry
    rw [hmain]
    simp only [hsl]
    refine cancel_conditional_order_primary_once env sl ?_
    rintro (he | hd)
    · exact truthy_str_ne_empty hsl he
    · rw [hdry] at hd
      exact Bool.false_ne_true hd
  · intro hnone
    rw [hmain]
    simp only [hnone]
  · refine ⟨pre, post, oid, hl, hi, ?_⟩
    rw [hmain]
    exact hq
  · intro env2
    rw [hmain]
    simp [check_order_status]

/-- Reconciliation environment in which the take-profit order reports
`filled` on the primary lookup and cancels succeed. -/
def c2_env : ReconEnv :=
  { dry_run := false
    fetch_order_resp := fun _ => .ok (some "filled")
    algo_status_resp := fun _ => .error ""
    cancel_order_resp := fun _ => .ok ()
    algo_cancel_resp := fun _ => .ok ()
    positions_resp := .ok [] }

/-- A live trade with one take-profit leg and a stop-loss order. -/
def c2_trade : ActiveTrade :=
  { entry_price := 100
    position_size := 15
    direction := "BUY"
    leverage := 10
    targets := [110]
    tp_orders := [(1, ⟨some "42", 110, 15⟩)]
    tp_notified := []
    sl_order_id := some "77"
    entry_order_id := some "11" }

/-- A ledger holding `c2_trade` under BTC/USDT. -/
def c2_trades : String → Option ActiveTrade :=
  fun s => if s = "BTC/USDT" then some c2_trade else none

/-- C2 witness: on the concrete filled take-profit leg, the pass removes the
trade, notifies leg 1 exactly once, and cancels the stop order exactly once. -/
theorem c2_witness :
    (check_order_status c2_env "BTC/USDT" c2_trades).1 "BTC/USDT" = none ∧
    ((check_order_status c2_env "BTC/USDT" c2_trades).2.notifications.map
      (fun p => (p.1, p.2.1))) = [("BTC/USDT", 1)] ∧
    primary_cancel_count "77"
      (check_order_status c2_env "BTC/USDT" c2_trades).2.cancel_calls = 1 := by
  have h := c2_tp_fill_pass c2_env "BTC/USDT" c2_trades c2_trade 1 ⟨some "42", 110, 15⟩
    rfl rfl
  refine ⟨h.1, ?_, ?_⟩
  · rw [h.2.2.1]
    rfl
  · exact h.2.2.2.2.2.1 "77" rfl rfl
